import Mathlib

/-!
Verification of the newsletter renderer (`render_newsletter.py`).

The development shallowly embeds the pure core of the program:

* `validate_newsletter_data` — schema validation over parsed YAML data,
* the four Jinja filter transforms `format_bullet`, `format_bullets`,
  `clean_citations`, `nl2br`,
* `generate_output_filename` — output filename derivation, and
* the `generated_at` timestamp assignment made by `render_newsletter`.

Parsed YAML values are modelled by the inductive `YVal`; Python dictionaries
become association lists (first occurrence of a key wins, mirroring the unique
keys of a `dict`).  Python exceptions become an `Except VErr` result; Python
dynamic-typing failures (`TypeError`/`KeyError`) are modelled explicitly so
that the validator is total over arbitrarily-shaped values, exactly as the
interpreter would behave.  The current wall-clock time is passed in as an
explicit string parameter wherever the source calls `datetime.now()`.
-/

set_option autoImplicit false

namespace NewsRender

/-- A parsed YAML value: `None`, a string, a sequence, or a mapping with
string keys (association list in document order, as produced by the parser). -/
inductive YVal where
  | null : YVal
  | str : String → YVal
  | seq : List YVal → YVal
  | map : List (String × YVal) → YVal

/-- The errors the embedded code can signal: `ValueError` with its message,
plus the dynamic errors Python would raise on ill-shaped values. -/
inductive VErr where
  | valueError : String → VErr
  | keyError : String → VErr
  | typeError : VErr
deriving DecidableEq, Repr

/-- Python `d[k]`-style first-match lookup on an association list. -/
def dictGet? (kvs : List (String × YVal)) (k : String) : Option YVal :=
  (kvs.find? (fun kv => kv.1 == k)).map (fun kv => kv.2)

/-- Python `k in d` on an association list. -/
def dictContains (kvs : List (String × YVal)) (k : String) : Bool :=
  kvs.any (fun kv => kv.1 == k)

/-- Python `==` between a value and a string key (used by `k in list`). -/
def isStrVal (k : String) (v : YVal) : Bool :=
  match v with
  | .str t => t == k
  | _ => false

/-- Occurrence of `pat` as a contiguous sublist of `l`. -/
def listHasSub (pat l : List Char) : Bool :=
  match l with
  | [] => pat.isEmpty
  | _ :: rest => pat.isPrefixOf l || listHasSub pat rest

/-- Python substring test `pat in s` (used by `k in someString`). -/
def strHasSub (s pat : String) : Bool :=
  listHasSub pat.toList s.toList

/-- Python truthiness of a YAML value (`if not x`). -/
def truthy (v : YVal) : Bool :=
  match v with
  | .null => false
  | .str s => !(s == "")
  | .seq xs => !xs.isEmpty
  | .map kvs => !kvs.isEmpty

/-- Python `k in v` for an arbitrary value `v`: key test on mappings,
membership on sequences, substring on strings, `TypeError` on `None`. -/
def pyContains (k : String) (v : YVal) : Except VErr Bool :=
  match v with
  | .map kvs => .ok (dictContains kvs k)
  | .seq xs => .ok (xs.any (isStrVal k))
  | .str s => .ok (strHasSub s k)
  | .null => .error .typeError

/-- Python `v[k]` for an arbitrary value `v` and string key `k`. -/
def pyGetItem (v : YVal) (k : String) : Except VErr YVal :=
  match v with
  | .map kvs =>
    match dictGet? kvs k with
    | some x => .ok x
    | none => .error (.keyError k)
  | _ => .error .typeError

/-- Python iteration over a value (`for x in v`): a sequence yields its
elements, a string its characters, a mapping its keys, `None` fails. -/
def pyIter (v : YVal) : Except VErr (List YVal) :=
  match v with
  | .seq xs => .ok xs
  | .str s => .ok (s.toList.map (fun c => YVal.str (String.mk [c])))
  | .map kvs => .ok (kvs.map (fun kv => YVal.str kv.1))
  | .null => .error .typeError

/-- The per-item required fields of the current (wrapped) schema variant,
in the order the source lists them. -/
def currentItemFields : List String :=
  ["company", "title", "summary", "why_it_matters", "next_steps"]

/-- The per-item required fields of the legacy schema variant. -/
def legacyItemFields : List String :=
  ["title", "summary", "why_it_matters"]

/-- The `for field in required_fields` loop of `validate_newsletter_data`:
raise `ValueError` naming the first field not contained in `newsletter`. -/
def checkRequired (newsletter : YVal) (fields : List String) : Except VErr Unit :=
  match fields with
  | [] => .ok ()
  | f :: fs =>
    match pyContains f newsletter with
    | .error e => .error e
    | .ok true => checkRequired newsletter fs
    | .ok false => .error (.valueError ("Missing required field \x27" ++ f ++ "\x27"))

/-- The inner `for field in required_item_fields` loop: raise on the first
required field missing from `item`, naming the 1-based item position `i + 1`. -/
def checkItemFields (item : YVal) (fields : List String) (i : Nat) : Except VErr Unit :=
  match fields with
  | [] => .ok ()
  | f :: fs =>
    match pyContains f item with
    | .error e => .error e
    | .ok true => checkItemFields item fs i
    | .ok false =>
      .error (.valueError
        ("Missing required field \x27" ++ f ++ "\x27 in item " ++ toString (i + 1)))

/-- The `for i, item in enumerate(newsletter['items'])` loop.  As in the
source, the required-field set is recomputed from `'newsletter' in data`
on every iteration. -/
def checkItems (data : List (String × YVal)) (l : List YVal) (i : Nat) : Except VErr Unit :=
  match l with
  | [] => .ok ()
  | item :: rest =>
    let req := if dictContains data "newsletter" then currentItemFields else legacyItemFields
    match checkItemFields item req i with
    | .error e => .error e
    | .ok _ => checkItems data rest (i + 1)

/-- `validate_newsletter_data(data)`: empty-input check, variant selection by
presence of the `newsletter` key, required top-level fields (the variant's
date key, then `items`), non-emptiness of `items`, then the per-item loop. -/
def validate_newsletter_data (data : List (String × YVal)) : Except VErr Unit :=
  if data.isEmpty then .error (.valueError "YAML file is empty")
  else
    let p : YVal × String :=
      match dictGet? data "newsletter" with
      | some nl => (nl, "date")
      | none => (YVal.map data, "newsletter_date")
    let newsletter := p.1
    let date_field := p.2
    match checkRequired newsletter [date_field, "items"] with
    | .error e => .error e
    | .ok _ =>
      match pyGetItem newsletter "items" with
      | .error e => .error e
      | .ok items =>
        if !truthy items then .error (.valueError "Newsletter must have at least one item")
        else
          match pyIter items with
          | .error e => .error e
          | .ok l => checkItems data l 0

/-- A schema variant as the specification describes it: the name of the
required date key and the per-item required field set. -/
structure SchemaVariant where
  dateField : String
  reqItemFields : List String

/-- The current (wrapped) variant: selected when the `newsletter` key is
present; date key `date`; items require all five fields. -/
def currentVariant : SchemaVariant :=
  ⟨"date", currentItemFields⟩

/-- The legacy variant: selected when the `newsletter` key is absent; date
key `newsletter_date`; items require three fields. -/
def legacyVariant : SchemaVariant :=
  ⟨"newsletter_date", legacyItemFields⟩

/-- The item loop with the required-field set fixed by a variant. -/
def checkItemsWith (req : List String) (l : List YVal) (i : Nat) : Except VErr Unit :=
  match l with
  | [] => .ok ()
  | item :: rest =>
    match checkItemFields item req i with
    | .error e => .error e
    | .ok _ => checkItemsWith req rest (i + 1)

/-- Modelled from the spec: the body of validation once a variant has been
selected — used to state that `validate_newsletter_data` factors through the
variant chosen solely by presence of the `newsletter` key. -/
def validateWith (v : SchemaVariant) (newsletter : YVal) : Except VErr Unit :=
  match checkRequired newsletter [v.dateField, "items"] with
  | .error e => .error e
  | .ok _ =>
    match pyGetItem newsletter "items" with
    | .error e => .error e
    | .ok items =>
      if !truthy items then .error (.valueError "Newsletter must have at least one item")
      else
        match pyIter items with
        | .error e => .error e
        | .ok l => checkItemsWith v.reqItemFields l 0

/-! ### Text Normalizer

The four Jinja filters are pure string transforms.  They are embedded at the
character-list level; the regex and `str.replace` operations of the source are
modelled by explicit scanners with the exact semantics of the patterns used
(`re.sub` replaces non-overlapping matches left to right and does not rescan
replacement text; `.` does not match a newline; `str.replace` substitutes
non-overlapping occurrences left to right).  Scanners that skip more than one
character per step take an explicit fuel argument, initialised to the input
length, which bounds the number of scanning steps; each step consumes at
least one character, so the fuel never runs out. -/

/-- Python whitespace for `str.strip` and the regex class `\s` (ASCII part). -/
def pyWs (c : Char) : Bool :=
  c == ' ' || c == '\t' || c == '\n' || c == '\r' || c == '\x0b' || c == '\x0c'

/-- `str.strip()` on a character list. -/
def pyStripL (l : List Char) : List Char :=
  ((l.dropWhile pyWs).reverse.dropWhile pyWs).reverse

/-- `str.strip()` on a string. -/
def pyStripS (s : String) : String :=
  String.mk (pyStripL s.toList)

/-- `re.sub(r"^\s*[•\-]\s*", "", l)`: if the text begins with optional
whitespace then a bullet glyph, remove that prefix together with the
whitespace following the glyph; otherwise the text is unchanged. -/
def stripLeadingBulletL (l : List Char) : List Char :=
  match l.dropWhile pyWs with
  | c :: tail => if c == '•' || c == '-' then tail.dropWhile pyWs else l
  | [] => l

/-- The bullet-stripping step on a string. -/
def stripLeadingBullet (s : String) : String :=
  String.mk (stripLeadingBulletL s.toList)

/-- The closing search of the lazy pattern `\*\*(.+?)\*\*`: after an opening
`**`, consume the shortest non-empty run of non-newline characters that is
immediately followed by `**`; return the run and the characters after the
closing `**`, or `none` when no closing exists before a newline or the end. -/
def findClose (l : List Char) : Option (List Char × List Char) :=
  match l with
  | [] => none
  | c :: rest =>
    if c == '\n' then none
    else
      match rest with
      | '*' :: '*' :: r2 => some ([c], r2)
      | _ =>
        match findClose rest with
        | some (x, r) => some (c :: x, r)
        | none => none

/-- `re.sub(r"\*\*(.+?)\*\*", r"<strong>\1</strong>", l)`, fuelled scan. -/
def mdBoldF (fuel : Nat) (l : List Char) : List Char :=
  match fuel, l with
  | 0, l => l
  | _ + 1, [] => []
  | fuel + 1, '*' :: '*' :: tail =>
    (match findClose tail with
     | some (x, r) =>
       "<strong>".toList ++ x ++ "</strong>".toList ++ mdBoldF fuel r
     | none => '*' :: mdBoldF fuel ('*' :: tail))
  | fuel + 1, c :: rest => c :: mdBoldF fuel rest

/-- The markdown-bold conversion on a character list. -/
def mdBoldL (l : List Char) : List Char :=
  mdBoldF l.length l

/-- The markdown-bold conversion on a string. -/
def markdownBoldToHtml (s : String) : String :=
  String.mk (mdBoldL s.toList)

/-- `str.replace(pat, "")`: delete the non-overlapping occurrences of the
literal `pat`, scanning left to right; fuelled scan. -/
def removeLitF (pat : List Char) (fuel : Nat) (l : List Char) : List Char :=
  match fuel, l with
  | 0, l => l
  | _ + 1, [] => []
  | fuel + 1, c :: rest =>
    if !pat.isEmpty && pat.isPrefixOf (c :: rest) then
      removeLitF pat fuel (rest.drop (pat.length - 1))
    else
      c :: removeLitF pat fuel rest

/-- Literal deletion on a character list. -/
def removeLit (pat : List Char) (l : List Char) : List Char :=
  removeLitF pat l.length l

/-- The citation-artifact deletions of `format_bullet`: the literal
substrings `:contentReference[oaicite:` and `]{index=`, then every `}`. -/
def stripCitationArtifacts (s : String) : String :=
  String.mk
    (removeLit ['\x7d']
      (removeLit ("]\x7bindex=".toList)
        (removeLit (":contentReference[oaicite:".toList) s.toList)))

/-- The `format_bullet` filter: trim, strip one leading bullet glyph,
convert `**bold**`, delete citation artifacts; empty input maps to `""`. -/
def format_bullet (text : String) : String :=
  if text = "" then ""
  else
    let cleaned := stripLeadingBullet (pyStripS text)
    let cleaned := markdownBoldToHtml cleaned
    let cleaned := stripCitationArtifacts cleaned
    cleaned

/-- `re.sub(r'\[\d+\]', '', l)`: delete bracketed digit runs, fuelled scan. -/
def remNumCitF (fuel : Nat) (l : List Char) : List Char :=
  match fuel, l with
  | 0, l => l
  | _ + 1, [] => []
  | fuel + 1, c :: rest =>
    if c == '[' then
      match rest.dropWhile Char.isDigit with
      | ']' :: r3 =>
        if !(rest.takeWhile Char.isDigit).isEmpty then remNumCitF fuel r3
        else c :: remNumCitF fuel rest
      | _ => c :: remNumCitF fuel rest
    else c :: remNumCitF fuel rest

/-- Deletion of `[n]` citation markers on a character list. -/
def remNumCit (l : List Char) : List Char :=
  remNumCitF l.length l

/-- One attempted match of the pattern
`:contentReference\[oaicite:[^\]]+\]\{index=\d+\}` at the head of the input;
on success return the characters after the match. -/
def tryOai (l : List Char) : Option (List Char) :=
  let pre := ":contentReference[oaicite:".toList
  if pre.isPrefixOf l then
    let r := l.drop pre.length
    let body := r.takeWhile (fun c => !(c == ']'))
    match r.dropWhile (fun c => !(c == ']')) with
    | ']' :: r3 =>
      if body.isEmpty then none
      else
        let idx := "\x7bindex=".toList
        if idx.isPrefixOf r3 then
          let r4 := r3.drop idx.length
          match r4.dropWhile Char.isDigit with
          | '\x7d' :: r6 =>
            if (r4.takeWhile Char.isDigit).isEmpty then none else some r6
          | _ => none
        else none
    | _ => none
  else none

/-- `re.sub` of the structured citation pattern, fuelled scan. -/
def remOaiF (fuel : Nat) (l : List Char) : List Char :=
  match fuel, l with
  | 0, l => l
  | _ + 1, [] => []
  | fuel + 1, c :: rest =>
    match tryOai (c :: rest) with
    | some r => remOaiF fuel r
    | none => c :: remOaiF fuel rest

/-- Deletion of structured citation markers on a character list. -/
def remOai (l : List Char) : List Char :=
  remOaiF l.length l

/-- The `clean_citations` filter: delete `[n]` markers, then structured
`:contentReference[oaicite:...]{index=...}` markers. -/
def clean_citations (text : String) : String :=
  if text = "" then ""
  else String.mk (remOai (remNumCit text.toList))

/-- `'\n'`-to-`'<br>'` substitution on a character list. -/
def nl2brL (l : List Char) : List Char :=
  match l with
  | [] => []
  | c :: rest =>
    if c = '\n' then '<' :: 'b' :: 'r' :: '>' :: nl2brL rest
    else c :: nl2brL rest

/-- The `nl2br` filter: replace every newline with `<br>`. -/
def nl2br (text : String) : String :=
  if text = "" then ""
  else String.mk (nl2brL text.toList)

/-- `str.split(sep)` for a single-character separator (empty segments
preserved, as in Python). -/
def splitCharL (sep : Char) (l : List Char) : List (List Char) :=
  match l with
  | [] => [[]]
  | c :: rest =>
    match splitCharL sep rest with
    | s :: ss => if c = sep then [] :: s :: ss else (c :: s) :: ss
    | [] => [[c]]

/-- `text.split('\n')` as a list of line strings. -/
def linesOf (s : String) : List String :=
  (splitCharL '\n' s.toList).map String.mk

/-- `line.strip().startswith(('-', '•'))`. -/
def lineIsBullet (line : String) : Bool :=
  match pyStripL line.toList with
  | c :: _ => c == '-' || c == '•'
  | [] => false

/-- The list-open marker emitted by `format_bullets`. -/
def ulOpenTag : String :=
  "<ul style=\"margin: 0; padding-left: 18px; font-size: 14px; color: #856404; list-style-type: disc;\">"

/-- The list-close marker emitted by `format_bullets`. -/
def ulCloseTag : String := "</ul>"

/-- A list item line of `format_bullets`. -/
def liTag (t : String) : String :=
  "<li style=\"margin-bottom: 5px;\">" ++ t ++ "</li>"

/-- The line loop of `format_bullets`, carrying the `in_list` flag: bullet
lines open a list (when not already open) and become `<li>` items via
`format_bullet`; non-bullet lines close an open list and pass through when
non-empty after stripping; a list still open at the end is closed. -/
def fbLoop (lines : List String) (inList : Bool) : List String :=
  match lines with
  | [] => if inList then [ulCloseTag] else []
  | line :: rest =>
    if lineIsBullet line then
      (if inList then [] else [ulOpenTag]) ++ liTag (format_bullet line) :: fbLoop rest true
    else
      (if inList then [ulCloseTag] else []) ++
        (if pyStripS line = "" then fbLoop rest false else line :: fbLoop rest false)

/-- The `format_bullets` filter: strip, split into lines, run the line loop,
rejoin with newlines; empty input maps to `""`. -/
def format_bullets (text : String) : String :=
  if text = "" then ""
  else String.intercalate "\n" (fbLoop (linesOf (pyStripS text)) false)

/-! ### Render Orchestrator and filename derivation -/

/-- The timestamp step of `render_newsletter`: when `generated_at` is absent
from the data mapping it is assigned the current timestamp (the caller's
mapping is updated in place in the source; here the updated mapping is the
returned state, with the new key appended in insertion order as a Python
`dict` does).  `now` stands for `datetime.now().strftime('%Y-%m-%d %H:%M:%S')`. -/
def render_setGeneratedAt (now : String) (data : List (String × YVal)) :
    List (String × YVal) :=
  if dictContains data "generated_at" then data
  else data ++ [("generated_at", YVal.str now)]

/-- `c.toNat - '0'.toNat` accumulation for a digit string. -/
def natOfDigits (l : List Char) : Nat :=
  l.foldl (fun n c => n * 10 + (c.toNat - 48)) 0

/-- The Gregorian leap-year rule used by `datetime`. -/
def isLeap (y : Nat) : Bool :=
  y % 4 == 0 && (!(y % 100 == 0) || y % 400 == 0)

/-- Days in a month, as enforced by the `datetime` constructor. -/
def daysInMonth (y m : Nat) : Nat :=
  if m == 2 then (if isLeap y then 29 else 28)
  else if m == 4 || m == 6 || m == 9 || m == 11 then 30
  else 31

/-- `datetime.strptime(s, '%Y-%m-%d')`: `%Y` matches exactly four digits,
`%m` and `%d` one or two digits, joined by literal dashes with nothing left
over; the resulting numbers must form a real calendar date with year at
least 1.  Returns the parsed (year, month, day) or `none` on `ValueError`. -/
def parseYMD (s : String) : Option (Nat × Nat × Nat) :=
  match splitCharL '-' s.toList with
  | [ys, ms, ds] =>
    if ys.length == 4 && ys.all Char.isDigit
        && (ms.length == 1 || ms.length == 2) && ms.all Char.isDigit
        && (ds.length == 1 || ds.length == 2) && ds.all Char.isDigit then
      let y := natOfDigits ys
      let m := natOfDigits ms
      let d := natOfDigits ds
      if 1 ≤ y && 1 ≤ m && m ≤ 12 && 1 ≤ d && d ≤ daysInMonth y m then
        some (y, m, d)
      else none
    else none
  | _ => none

/-- Left zero-padding of a number to a given width (`strftime` field). -/
def padNum (w n : Nat) : String :=
  let s := toString n
  String.mk (List.replicate (w - s.length) '0' ++ s.toList)

/-- `generate_output_filename(newsletter_date)`: parse the date as
`YYYY-MM-DD` and produce `newsletter_<YYYYMMDD>.html`; on parse failure fall
back to the current date `todayYMD` (the `strftime('%Y%m%d')` of now). -/
def generate_output_filename (todayYMD : String) (newsletter_date : String) : String :=
  let date_str :=
    match parseYMD newsletter_date with
    | some (y, m, d) => padNum 4 y ++ padNum 2 m ++ padNum 2 d
    | none => todayYMD
  "newsletter_" ++ date_str ++ ".html"

/-! ### Helper lemmas about the validator -/

theorem dictGet?_nil (k : String) : dictGet? [] k = none := rfl

theorem dictGet?_some_ne_nil {kvs : List (String × YVal)} {k : String} {v : YVal}
    (h : dictGet? kvs k = some v) : kvs ≠ [] := by
  intro he
  subst he
  simp [dictGet?] at h

theorem dictContains_eq_isSome (kvs : List (String × YVal)) (k : String) :
    dictContains kvs k = (dictGet? kvs k).isSome := by
  induction kvs with
  | nil => rfl
  | cons kv rest ih =>
    cases h : kv.1 == k with
    | true => simp [dictContains, dictGet?, List.any_cons, List.find?_cons, h]
    | false =>
      simp only [dictContains, dictGet?, List.any_cons, List.find?_cons, h, Bool.false_or]
      exact ih

theorem dictContains_of_get_some {kvs : List (String × YVal)} {k : String} {v : YVal}
    (h : dictGet? kvs k = some v) : dictContains kvs k = true := by
  rw [dictContains_eq_isSome, h]
  rfl

theorem dictContains_of_get_none {kvs : List (String × YVal)} {k : String}
    (h : dictGet? kvs k = none) : dictContains kvs k = false := by
  rw [dictContains_eq_isSome, h]
  rfl

theorem checkItems_eq_checkItemsWith (data : List (String × YVal))
    (l : List YVal) (i : Nat) :
    checkItems data l i =
      checkItemsWith
        (if dictContains data "newsletter" then currentItemFields else legacyItemFields)
        l i := by
  induction l generalizing i with
  | nil => rfl
  | cons item rest ih =>
    simp only [checkItems, checkItemsWith]
    cases checkItemFields item
        (if dictContains data "newsletter" then currentItemFields else legacyItemFields) i with
    | error e => rfl
    | ok u => exact ih (i + 1)

/-- `validate_newsletter_data` on non-empty input factors through the variant
selected by presence of the `newsletter` key. -/
theorem validate_eq_byVariant (data : List (String × YVal)) (h : data ≠ []) :
    validate_newsletter_data data =
      match dictGet? data "newsletter" with
      | some nl => validateWith currentVariant nl
      | none => validateWith legacyVariant (YVal.map data) := by
  have hne : data.isEmpty = false := by
    cases data with
    | nil => exact absurd rfl h
    | cons a l => rfl
  cases hnl : dictGet? data "newsletter" with
  | some nl =>
    have hc : dictContains data "newsletter" = true := dictContains_of_get_some hnl
    simp only [validate_newsletter_data, hne, Bool.false_eq_true, if_false, hnl,
      validateWith, currentVariant, checkItems_eq_checkItemsWith, hc, if_true]
  | none =>
    have hc : dictContains data "newsletter" = false := dictContains_of_get_none hnl
    simp only [validate_newsletter_data, hne, Bool.false_eq_true, if_false, hnl,
      validateWith, legacyVariant, checkItems_eq_checkItemsWith, hc]

theorem checkItemFields_ok (ikvs : List (String × YVal)) (req : List String) (i : Nat)
    (h : req.all (dictContains ikvs) = true) :
    checkItemFields (YVal.map ikvs) req i = .ok () := by
  induction req with
  | nil => rfl
  | cons f fs ih =>
    rw [List.all_cons, Bool.and_eq_true] at h
    simp [checkItemFields, pyContains, h.1, ih h.2]

theorem checkItemsWith_ok (req : List String) (l : List YVal) (i : Nat)
    (h : ∀ item ∈ l, ∃ ikvs, item = YVal.map ikvs ∧ req.all (dictContains ikvs) = true) :
    checkItemsWith req l i = .ok () := by
  induction l generalizing i with
  | nil => rfl
  | cons item rest ih =>
    obtain ⟨ikvs, hitem, hfields⟩ := h item (List.mem_cons_self item rest)
    subst hitem
    simp [checkItemsWith, checkItemFields_ok ikvs req i hfields]
    exact ih (i + 1) (fun x hx => h x (List.mem_cons_of_mem _ hx))

/-- Success of the variant-parameterised body on a well-shaped mapping. -/
theorem validateWith_success (v : SchemaVariant) (nlkvs : List (String × YVal))
    (dv : YVal) (items : List YVal)
    (hd : dictGet? nlkvs v.dateField = some dv)
    (hi : dictGet? nlkvs "items" = some (YVal.seq items))
    (hne : items ≠ [])
    (hall : ∀ item ∈ items, ∃ ikvs, item = YVal.map ikvs ∧
      v.reqItemFields.all (dictContains ikvs) = true) :
    validateWith v (YVal.map nlkvs) = .ok () := by
  have hcd : dictContains nlkvs v.dateField = true := dictContains_of_get_some hd
  have hci : dictContains nlkvs "items" = true := dictContains_of_get_some hi
  have hemp : items.isEmpty = false := by
    cases items with
    | nil => exact absurd rfl hne
    | cons a l => rfl
  simp only [validateWith, checkRequired, pyContains, hcd, hci, pyGetItem, hi,
    truthy, hemp, Bool.not_false, Bool.not_true, Bool.false_eq_true, if_false, pyIter]
  exact checkItemsWith_ok v.reqItemFields items 0 hall

theorem checkItemFields_firstMissing (ikvs : List (String × YVal))
    (req : List String) (i : Nat) (f : String)
    (h : req.find? (fun fl => !dictContains ikvs fl) = some f) :
    checkItemFields (YVal.map ikvs) req i =
      .error (.valueError
        ("Missing required field \x27" ++ f ++ "\x27 in item " ++ toString (i + 1))) := by
  induction req with
  | nil => simp [List.find?] at h
  | cons g gs ih =>
    rw [List.find?_cons] at h
    cases hc : dictContains ikvs g with
    | true =>
      rw [hc] at h
      simp only [Bool.not_true] at h
      simp only [checkItemFields, pyContains, hc]
      exact ih h
    | false =>
      rw [hc] at h
      simp only [Bool.not_false] at h
      have : g = f := by
        simpa using h
      subst this
      simp [checkItemFields, pyContains, hc]

theorem checkItemsWith_firstFail (req : List String) (good : List YVal)
    (bkvs : List (String × YVal)) (rest : List YVal) (i : Nat) (f : String)
    (hgood : ∀ g ∈ good, ∃ gkvs, g = YVal.map gkvs ∧ req.all (dictContains gkvs) = true)
    (hbad : req.find? (fun fl => !dictContains bkvs fl) = some f) :
    checkItemsWith req (good ++ YVal.map bkvs :: rest) i =
      .error (.valueError
        ("Missing required field \x27" ++ f ++ "\x27 in item "
          ++ toString (i + good.length + 1))) := by
  induction good generalizing i with
  | nil =>
    simp only [List.nil_append, checkItemsWith,
      checkItemFields_firstMissing bkvs req i f hbad, List.length_nil, Nat.add_zero]
  | cons g gs ih =>
    obtain ⟨gkvs, hg, hfields⟩ := hgood g (List.mem_cons_self g gs)
    subst hg
    have hih := ih (i + 1) (fun x hx => hgood x (List.mem_cons_of_mem _ hx))
    have harith : i + 1 + gs.length + 1 = i + (gs.length + 1) + 1 := by omega
    rw [harith] at hih
    simp only [List.cons_append, checkItemsWith, checkItemFields_ok gkvs req i hfields,
      List.length_cons]
    exact hih

/-- When the variant's date key is not contained in the newsletter value,
validation stops at the date check, naming that key — regardless of whether
`items` is present. -/
theorem validateWith_dateMissing (v : SchemaVariant) (nl : YVal)
    (hd : pyContains v.dateField nl = .ok false) :
    validateWith v nl =
      .error (.valueError ("Missing required field \x27" ++ v.dateField ++ "\x27")) := by
  simp [validateWith, checkRequired, hd]

/-- When the date key is present but `items` maps to the empty sequence,
validation fails with the dedicated no-items message. -/
theorem validateWith_noItems (v : SchemaVariant) (nlkvs : List (String × YVal))
    (dv : YVal)
    (hd : dictGet? nlkvs v.dateField = some dv)
    (hi : dictGet? nlkvs "items" = some (YVal.seq [])) :
    validateWith v (YVal.map nlkvs) =
      .error (.valueError "Newsletter must have at least one item") := by
  have hcd : dictContains nlkvs v.dateField = true := dictContains_of_get_some hd
  have hci : dictContains nlkvs "items" = true := dictContains_of_get_some hi
  simp [validateWith, checkRequired, pyContains, hcd, hci, pyGetItem, hi, truthy]

/-- Lookup after appending one binding at the back of an association list. -/
theorem dictGet?_append_single (l : List (String × YVal)) (key : String) (v : YVal)
    (k : String) :
    dictGet? (l ++ [(key, v)]) k =
      match dictGet? l k with
      | some x => some x
      | none => if key == k then some v else none := by
  induction l with
  | nil =>
    cases h : key == k <;> simp [dictGet?, List.find?_cons, List.find?_nil, h]
  | cons kv rest ih =>
    cases h : kv.1 == k with
    | true => simp [dictGet?, List.find?_cons, h]
    | false =>
      simp only [List.cons_append, dictGet?, List.find?_cons, h]
      exact ih

/-- `getLast?` of an append whose right part is non-empty. -/
theorem getLast?_append_right {α : Type} (l₁ l₂ : List α) (h : l₂ ≠ []) :
    (l₁ ++ l₂).getLast? = l₂.getLast? := by
  rw [List.getLast?_append]
  cases h2 : l₂.getLast? with
  | none => exact absurd (List.getLast?_eq_none_iff.mp h2) h
  | some x => rfl

/-- A string is empty exactly when its character list is. -/
theorem str_eq_empty_iff (s : String) : s = "" ↔ s.toList = [] := by
  constructor
  · intro h
    subst h
    rfl
  · intro h
    have hs : s = String.mk s.toList := rfl
    rw [hs, h]

/-- Fail-fast behaviour of the variant-parameterised body: with well-formed
items `good` before a first deficient item, validation reports the first
missing required field (in the variant's field order) of that item together
with its 1-based position, independently of the items in `rest` and of the
fields of the deficient item beyond the first missing one. -/
theorem validateWith_firstFail (v : SchemaVariant) (nlkvs : List (String × YVal))
    (dv : YVal) (good : List YVal) (bkvs : List (String × YVal)) (rest : List YVal)
    (f : String)
    (hd : dictGet? nlkvs v.dateField = some dv)
    (hi : dictGet? nlkvs "items" = some (YVal.seq (good ++ YVal.map bkvs :: rest)))
    (hgood : ∀ g ∈ good, ∃ gkvs, g = YVal.map gkvs ∧
      v.reqItemFields.all (dictContains gkvs) = true)
    (hbad : v.reqItemFields.find? (fun fl => !dictContains bkvs fl) = some f) :
    validateWith v (YVal.map nlkvs) =
      .error (.valueError ("Missing required field \x27" ++ f ++ "\x27 in item "
        ++ toString (good.length + 1))) := by
  have hcd : dictContains nlkvs v.dateField = true := dictContains_of_get_some hd
  have hci : dictContains nlkvs "items" = true := dictContains_of_get_some hi
  have hemp : (good ++ YVal.map bkvs :: rest).isEmpty = false := by
    cases good <;> rfl
  simp only [validateWith, checkRequired, pyContains, hcd, hci, pyGetItem, hi,
    truthy, hemp, Bool.not_false, Bool.not_true, Bool.false_eq_true, if_false, pyIter]
  rw [checkItemsWith_firstFail v.reqItemFields good bkvs rest 0 f hgood hbad]
  simp

/-! ### Helper lemmas about the normalizer -/

theorem nl2brL_idem (l : List Char) : nl2brL (nl2brL l) = nl2brL l := by
  induction l with
  | nil => rfl
  | cons c rest ih =>
    by_cases h : c = '\n'
    · subst h
      simp [nl2brL, ih]
    · simp [nl2brL, h, ih]

theorem nl2brL_ne_nil (l : List Char) (h : l ≠ []) : nl2brL l ≠ [] := by
  cases l with
  | nil => exact absurd rfl h
  | cons c rest => by_cases hc : c = '\n' <;> simp [nl2brL, hc]

/-- `nl2br` is idempotent: its output contains no newline, so a second pass
changes nothing. -/
theorem nl2br_idem (s : String) : nl2br (nl2br s) = nl2br s := by
  by_cases h : s = ""
  · subst h
    rfl
  · have h1 : s.toList ≠ [] := fun he => h ((str_eq_empty_iff s).mpr he)
    have h2 : nl2br s = String.mk (nl2brL s.toList) := by
      simp [nl2br, h]
    have h3 : String.mk (nl2brL s.toList) ≠ "" :=
      fun hc => nl2brL_ne_nil s.toList h1 ((str_eq_empty_iff _).mp hc)
    rw [h2]
    simp only [nl2br, h3, if_false]
    rw [show (String.mk (nl2brL s.toList)).toList = nl2brL s.toList from rfl, nl2brL_idem]

/-- One unfolding step of the `format_bullets` line loop. -/
theorem fbLoop_cons (line : String) (rest : List String) (b : Bool) :
    fbLoop (line :: rest) b =
      if lineIsBullet line then
        (if b then [] else [ulOpenTag]) ++ liTag (format_bullet line) :: fbLoop rest true
      else
        (if b then [ulCloseTag] else []) ++
          (if pyStripS line = "" then fbLoop rest false else line :: fbLoop rest false) := rfl

/-- `getLast?` of a cons whose tail is non-empty. -/
theorem getLast?_cons_of_ne_nil {α : Type} (a : α) (l : List α) (h : l ≠ []) :
    (a :: l).getLast? = l.getLast? := by
  rw [← List.singleton_append]
  exact getLast?_append_right [a] l h

/-! ### Claims -/

/-- C1: `validate_newsletter_data` selects the schema variant solely by
presence of the `newsletter` key — when present, validation runs the Current
variant (date key `date`, per-item required fields company, title, summary,
why_it_matters, next_steps) on the wrapper value; when absent, the Legacy
variant (date key `newsletter_date`, per-item required fields title, summary,
why_it_matters) on the whole mapping.  Moreover every Current-shape input
whose wrapper has a `date` key and a non-empty `items` sequence in which
every item carries all five required keys validates successfully. -/
theorem claim1_variant_selection_and_current_success :
    (∀ data : List (String × YVal), data ≠ [] →
      validate_newsletter_data data =
        match dictGet? data "newsletter" with
        | some nl => validateWith currentVariant nl
        | none => validateWith legacyVariant (YVal.map data))
    ∧ currentVariant.dateField = "date"
    ∧ currentVariant.reqItemFields
        = ["company", "title", "summary", "why_it_matters", "next_steps"]
    ∧ legacyVariant.dateField = "newsletter_date"
    ∧ legacyVariant.reqItemFields = ["title", "summary", "why_it_matters"]
    ∧ (∀ (data nlkvs : List (String × YVal)) (dv : YVal) (items : List YVal),
        dictGet? data "newsletter" = some (YVal.map nlkvs) →
        dictGet? nlkvs "date" = some dv →
        dictGet? nlkvs "items" = some (YVal.seq items) →
        items ≠ [] →
        (∀ item ∈ items, ∃ ikvs, item = YVal.map ikvs ∧
          currentItemFields.all (dictContains ikvs) = true) →
        validate_newsletter_data data = .ok ()) := by
  refine ⟨validate_eq_byVariant, rfl, rfl, rfl, rfl, ?_⟩
  intro data nlkvs dv items hnl hd hi hne hall
  rw [validate_eq_byVariant data (dictGet?_some_ne_nil hnl), hnl]
  exact validateWith_success currentVariant nlkvs dv items hd hi hne hall

/-- Witness for C1 at a concrete Current-shape input. -/
theorem claim1_witness :
    validate_newsletter_data
      [("newsletter", YVal.map
        [("date", YVal.str "2024-01-10"),
         ("items", YVal.seq [YVal.map
           [("company", YVal.str "Acme"), ("title", YVal.str "T"),
            ("summary", YVal.str "S"), ("why_it_matters", YVal.str "W"),
            ("next_steps", YVal.str "N")]])])] = .ok () := by
  refine claim1_variant_selection_and_current_success.2.2.2.2.2 _ _
      (YVal.str "2024-01-10") _ rfl rfl rfl (by simp) ?_
  intro item hitem
  rw [List.mem_singleton] at hitem
  subst hitem
  exact ⟨_, rfl, rfl⟩

/-- C10: apart from the top-level empty-input check and the items
non-emptiness check, validation only tests key presence, never value
content: in either variant, whenever the variant's date key and `items` are
present, `items` is a non-empty sequence, and every item is a mapping
carrying all of the variant's required keys, validation succeeds — the
values of the date key and of the item fields are universally quantified,
so they may in particular be `null` or the empty string. -/
theorem claim10_presence_only :
    (∀ (data nlkvs : List (String × YVal)) (dv : YVal) (items : List YVal),
      dictGet? data "newsletter" = some (YVal.map nlkvs) →
      dictGet? nlkvs "date" = some dv →
      dictGet? nlkvs "items" = some (YVal.seq items) →
      items ≠ [] →
      (∀ item ∈ items, ∃ ikvs, item = YVal.map ikvs ∧
        currentItemFields.all (dictContains ikvs) = true) →
      validate_newsletter_data data = .ok ())
    ∧ (∀ (data : List (String × YVal)) (dv : YVal) (items : List YVal),
      dictGet? data "newsletter" = none →
      dictGet? data "newsletter_date" = some dv →
      dictGet? data "items" = some (YVal.seq items) →
      items ≠ [] →
      (∀ item ∈ items, ∃ ikvs, item = YVal.map ikvs ∧
        legacyItemFields.all (dictContains ikvs) = true) →
      validate_newsletter_data data = .ok ()) := by
  constructor
  · intro data nlkvs dv items hnl hd hi hne hall
    rw [validate_eq_byVariant data (dictGet?_some_ne_nil hnl), hnl]
    exact validateWith_success currentVariant nlkvs dv items hd hi hne hall
  · intro data dv items hnl hd hi hne hall
    rw [validate_eq_byVariant data (dictGet?_some_ne_nil hd), hnl]
    exact validateWith_success legacyVariant data dv items hd hi hne hall

/-- Witness for C10: both variants succeed with `null` and empty-string
values under every required key. -/
theorem claim10_witness :
    validate_newsletter_data
      [("newsletter", YVal.map
        [("date", YVal.null),
         ("items", YVal.seq [YVal.map
           [("company", YVal.null), ("title", YVal.str ""),
            ("summary", YVal.null), ("why_it_matters", YVal.str ""),
            ("next_steps", YVal.null)]])])] = .ok ()
    ∧ validate_newsletter_data
        [("newsletter_date", YVal.null),
         ("items", YVal.seq [YVal.map
           [("title", YVal.null), ("summary", YVal.str ""),
            ("why_it_matters", YVal.null)]])] = .ok () := by
  constructor
  · refine claim10_presence_only.1 _ _ YVal.null _ rfl rfl rfl (by simp) ?_
    intro item hitem
    rw [List.mem_singleton] at hitem
    subst hitem
    exact ⟨_, rfl, rfl⟩
  · refine claim10_presence_only.2 _ YVal.null _ rfl rfl rfl (by simp) ?_
    intro item hitem
    rw [List.mem_singleton] at hitem
    subst hitem
    exact ⟨_, rfl, rfl⟩

/-- C2: once the top-level checks pass, validation fails on the first item
missing a required field of its variant, scanning items in order and fields
in the variant's required order, with an error naming that field and the
item's 1-based position.  The deficient item's later fields are
unconstrained (only the first missing field, per `List.find?`, determines
the message), and the items in `rest` after the failing one are universally
quantified, so the result does not depend on them. -/
theorem claim2_fail_fast_first_missing :
    (∀ (data nlkvs : List (String × YVal)) (dv : YVal) (good : List YVal)
        (bkvs : List (String × YVal)) (rest : List YVal) (f : String),
      dictGet? data "newsletter" = some (YVal.map nlkvs) →
      dictGet? nlkvs "date" = some dv →
      dictGet? nlkvs "items" = some (YVal.seq (good ++ YVal.map bkvs :: rest)) →
      (∀ g ∈ good, ∃ gkvs, g = YVal.map gkvs ∧
        currentItemFields.all (dictContains gkvs) = true) →
      currentItemFields.find? (fun fl => !dictContains bkvs fl) = some f →
      validate_newsletter_data data =
        .error (.valueError ("Missing required field \x27" ++ f ++ "\x27 in item "
          ++ toString (good.length + 1))))
    ∧ (∀ (data : List (String × YVal)) (dv : YVal) (good : List YVal)
        (bkvs : List (String × YVal)) (rest : List YVal) (f : String),
      dictGet? data "newsletter" = none →
      dictGet? data "newsletter_date" = some dv →
      dictGet? data "items" = some (YVal.seq (good ++ YVal.map bkvs :: rest)) →
      (∀ g ∈ good, ∃ gkvs, g = YVal.map gkvs ∧
        legacyItemFields.all (dictContains gkvs) = true) →
      legacyItemFields.find? (fun fl => !dictContains bkvs fl) = some f →
      validate_newsletter_data data =
        .error (.valueError ("Missing required field \x27" ++ f ++ "\x27 in item "
          ++ toString (good.length + 1)))) := by
  constructor
  · intro data nlkvs dv good bkvs rest f hnl hd hi hgood hbad
    rw [validate_eq_byVariant data (dictGet?_some_ne_nil hnl), hnl]
    exact validateWith_firstFail currentVariant nlkvs dv good bkvs rest f hd hi hgood hbad
  · intro data dv good bkvs rest f hnl hd hi hgood hbad
    rw [validate_eq_byVariant data (dictGet?_some_ne_nil hd), hnl]
    exact validateWith_firstFail legacyVariant data dv good bkvs rest f hd hi hgood hbad

/-- Witness for C2: the second item lacks `title` (its first missing field in
order — `company` is present and `summary` is also absent but reported
later), a third junk item follows, and the error names `title` and item 2. -/
theorem claim2_witness :
    validate_newsletter_data
      [("newsletter", YVal.map
        [("date", YVal.null),
         ("items", YVal.seq
           [YVal.map
             [("company", YVal.null), ("title", YVal.null), ("summary", YVal.null),
              ("why_it_matters", YVal.null), ("next_steps", YVal.null)],
            YVal.map [("company", YVal.null)],
            YVal.null])])] =
      .error (.valueError "Missing required field \x27title\x27 in item 2") := by
  have h := claim2_fail_fast_first_missing.1
    [("newsletter", YVal.map
      [("date", YVal.null),
       ("items", YVal.seq
         [YVal.map
           [("company", YVal.null), ("title", YVal.null), ("summary", YVal.null),
            ("why_it_matters", YVal.null), ("next_steps", YVal.null)],
          YVal.map [("company", YVal.null)],
          YVal.null])])]
    _ YVal.null
    [YVal.map
      [("company", YVal.null), ("title", YVal.null), ("summary", YVal.null),
       ("why_it_matters", YVal.null), ("next_steps", YVal.null)]]
    [("company", YVal.null)] [YVal.null] "title"
    rfl rfl rfl ?_ rfl
  · exact h
  · intro g hg
    rw [List.mem_singleton] at hg
    subst hg
    exact ⟨_, rfl, rfl⟩

/-- C3: a missing variant-correct date key is reported by name before any
items check runs — the first two conjuncts place no constraint at all on
`items`, so they cover in particular inputs where both the date key and
`items` are missing; and when the date key is present but `items` maps to
the empty sequence, validation fails with the distinct no-items error, which
differs from the missing-`items`-field error. -/
theorem claim3_date_precedence_and_noitems :
    (∀ (data : List (String × YVal)) (nl : YVal),
      dictGet? data "newsletter" = some nl →
      pyContains "date" nl = .ok false →
      validate_newsletter_data data =
        .error (.valueError "Missing required field \x27date\x27"))
    ∧ (∀ data : List (String × YVal), data ≠ [] →
      dictGet? data "newsletter" = none →
      dictContains data "newsletter_date" = false →
      validate_newsletter_data data =
        .error (.valueError "Missing required field \x27newsletter_date\x27"))
    ∧ (∀ (data nlkvs : List (String × YVal)) (dv : YVal),
      dictGet? data "newsletter" = some (YVal.map nlkvs) →
      dictGet? nlkvs "date" = some dv →
      dictGet? nlkvs "items" = some (YVal.seq []) →
      validate_newsletter_data data =
        .error (.valueError "Newsletter must have at least one item"))
    ∧ (∀ (data : List (String × YVal)) (dv : YVal),
      dictGet? data "newsletter" = none →
      dictGet? data "newsletter_date" = some dv →
      dictGet? data "items" = some (YVal.seq []) →
      validate_newsletter_data data =
        .error (.valueError "Newsletter must have at least one item"))
    ∧ VErr.valueError "Newsletter must have at least one item"
        ≠ VErr.valueError "Missing required field \x27items\x27" := by
  refine ⟨?_, ?_, ?_, ?_, by decide⟩
  · intro data nl hnl hd
    rw [validate_eq_byVariant data (dictGet?_some_ne_nil hnl), hnl]
    exact validateWith_dateMissing currentVariant nl hd
  · intro data hne hnl hd
    rw [validate_eq_byVariant data hne, hnl]
    exact validateWith_dateMissing legacyVariant (YVal.map data)
      (by simp [pyContains, legacyVariant, hd])
  · intro data nlkvs dv hnl hd hi
    rw [validate_eq_byVariant data (dictGet?_some_ne_nil hnl), hnl]
    exact validateWith_noItems currentVariant nlkvs dv hd hi
  · intro data dv hnl hd hi
    rw [validate_eq_byVariant data (dictGet?_some_ne_nil hd), hnl]
    exact validateWith_noItems legacyVariant data dv hd hi

/-- Witness for C3 at concrete inputs: a wrapper missing both `date` and
`items` is reported for `date`; a legacy input missing `newsletter_date` is
reported for it; `items: []` yields the no-items error in both variants. -/
theorem claim3_witness :
    validate_newsletter_data [("newsletter", YVal.map [("subject", YVal.null)])] =
      .error (.valueError "Missing required field \x27date\x27")
    ∧ validate_newsletter_data [("subject", YVal.null)] =
      .error (.valueError "Missing required field \x27newsletter_date\x27")
    ∧ validate_newsletter_data
        [("newsletter", YVal.map [("date", YVal.null), ("items", YVal.seq [])])] =
      .error (.valueError "Newsletter must have at least one item")
    ∧ validate_newsletter_data
        [("newsletter_date", YVal.null), ("items", YVal.seq [])] =
      .error (.valueError "Newsletter must have at least one item") := by
  refine ⟨?_, ?_, ?_, ?_⟩
  · exact claim3_date_precedence_and_noitems.1 _ (YVal.map [("subject", YVal.null)]) rfl rfl
  · exact claim3_date_precedence_and_noitems.2.1 _ (by simp) rfl rfl
  · exact claim3_date_precedence_and_noitems.2.2.1 _ _ YVal.null rfl rfl rfl
  · exact claim3_date_precedence_and_noitems.2.2.2.1 _ YVal.null rfl rfl rfl

/-- C4 counterexample: three of the registered transforms are not idempotent
on their own output.  `format_bullet "\x7d- x"` = `"- x"` (the `\x7d` deletion
exposes a bullet that a second pass strips, giving `"x"`);
`clean_citations "[[1]1]"` = `"[1]"` (deleting `[1]` creates a new `[1]` that
a second pass deletes); and the markdown-bold conversion of `"****a** b **"`
is `"<strong>**a</strong> b **"`, which still contains a matchable `**` pair
that a second pass converts. -/
theorem claim4_counterexample :
    format_bullet (format_bullet "\x7d- x") ≠ format_bullet "\x7d- x"
    ∧ clean_citations (clean_citations "[[1]1]") ≠ clean_citations "[[1]1]"
    ∧ markdownBoldToHtml (markdownBoldToHtml "****a** b **")
        ≠ markdownBoldToHtml "****a** b **" := by
  refine ⟨by decide, by decide, by decide⟩

/-- C4 as amended: among the registered transforms only `nl2br` is idempotent
on its own output (`format_bullets` being exempt); `format_bullet`,
`clean_citations`, and the markdown-bold conversion each admit an input on
which reapplying them to their own output changes it. -/
theorem claim4_amended_idempotence :
    (∀ s : String, nl2br (nl2br s) = nl2br s)
    ∧ (∃ s : String, format_bullet (format_bullet s) ≠ format_bullet s)
    ∧ (∃ s : String, clean_citations (clean_citations s) ≠ clean_citations s)
    ∧ (∃ s : String, markdownBoldToHtml (markdownBoldToHtml s) ≠ markdownBoldToHtml s) :=
  ⟨nl2br_idem, ⟨"\x7d- x", by decide⟩, ⟨"[[1]1]", by decide⟩,
    ⟨"****a** b **", by decide⟩⟩

/-- C5: on `"- a\n- b\ntext"` the line loop emits, in order, one list-open
marker, items `a` and `b`, one list-close marker, then the literal line
`text`, and the filter joins them with newlines.  In general a non-bullet
line with non-empty strip passes through unchanged (after closing an open
list), a non-bullet line with empty strip is dropped, the loop closes a list
left open at the end of input, and whenever the final line is a bullet line
the output ends with the list-close marker. -/
theorem claim5_format_bullets_structure :
    format_bullets "- a\n- b\ntext" =
      ulOpenTag ++ "\n" ++ liTag "a" ++ "\n" ++ liTag "b" ++ "\n"
        ++ ulCloseTag ++ "\n" ++ "text"
    ∧ fbLoop ["- a", "- b", "text"] false
        = [ulOpenTag, liTag "a", liTag "b", ulCloseTag, "text"]
    ∧ (∀ (line : String) (rest : List String) (b : Bool),
        lineIsBullet line = false → pyStripS line ≠ "" →
        fbLoop (line :: rest) b =
          (if b then [ulCloseTag] else []) ++ line :: fbLoop rest false)
    ∧ (∀ (line : String) (rest : List String) (b : Bool),
        lineIsBullet line = false → pyStripS line = "" →
        fbLoop (line :: rest) b = (if b then [ulCloseTag] else []) ++ fbLoop rest false)
    ∧ (∀ b : Bool, fbLoop [] b = if b then [ulCloseTag] else [])
    ∧ (∀ (lines : List String) (b : Bool) (l : String),
        lines.getLast? = some l → lineIsBullet l = true →
        (fbLoop lines b).getLast? = some ulCloseTag) := by
  refine ⟨by set_option maxRecDepth 8192 in decide,
    by set_option maxRecDepth 8192 in decide, ?_, ?_, fun b => rfl, ?_⟩
  · intro line rest b h1 h2
    simp [fbLoop, h1, h2]
  · intro line rest b h1 h2
    simp [fbLoop, h1, h2]
  · intro lines
    induction lines with
    | nil =>
      intro b l h
      simp at h
    | cons x rest ih =>
      intro b l hlast hbul
      cases rest with
      | nil =>
        simp only [List.getLast?_singleton, Option.some.injEq] at hlast
        subst hlast
        rw [fbLoop_cons, if_pos hbul, show fbLoop [] true = [ulCloseTag] from rfl,
          getLast?_append_right _ _ (by simp)]
        simp
      | cons y t =>
        rw [List.getLast?_cons_cons] at hlast
        by_cases hb : lineIsBullet x = true
        · have hres := ih true l hlast hbul
          have hne : fbLoop (y :: t) true ≠ [] := by
            intro he
            rw [he] at hres
            simp at hres
          rw [fbLoop_cons, if_pos hb, getLast?_append_right _ _ (by simp),
            getLast?_cons_of_ne_nil _ _ hne]
          exact hres
        · have hres := ih false l hlast hbul
          have hne : fbLoop (y :: t) false ≠ [] := by
            intro he
            rw [he] at hres
            simp at hres
          by_cases hstrip : pyStripS x = ""
          · rw [fbLoop_cons, if_neg hb, if_pos hstrip, getLast?_append_right _ _ hne]
            exact hres
          · rw [fbLoop_cons, if_neg hb, if_neg hstrip,
              getLast?_append_right _ _ (by simp), getLast?_cons_of_ne_nil _ _ hne]
            exact hres

/-- Witness for C5's conditional conjuncts at concrete inputs: a non-bullet
non-empty line passes through (closing an open list), an all-whitespace line
is dropped, and a line list ending in a bullet line yields output ending in
the list-close marker. -/
theorem claim5_witness :
    fbLoop ["text"] true = [ulCloseTag, "text"]
    ∧ fbLoop ["  ", "- a"] false = fbLoop ["- a"] false
    ∧ (fbLoop ["x", "- a"] false).getLast? = some ulCloseTag := by
  refine ⟨?_, ?_, ?_⟩
  · have h := claim5_format_bullets_structure.2.2.1 "text" [] true (by decide) (by decide)
    simpa using h
  · have h := claim5_format_bullets_structure.2.2.2.1 "  " ["- a"] false (by decide) (by decide)
    simpa using h
  · exact claim5_format_bullets_structure.2.2.2.2.2 ["x", "- a"] false "- a" (by decide)
      (by decide)

/-- C6: `format_bullet` is exactly the pipeline trim, strip one leading
bullet glyph with surrounding whitespace, convert each lazy `**X**` span to
`<strong>X</strong>`, then delete the citation-artifact literals
`:contentReference[oaicite:`, `]\x7bindex=` and every `\x7d`; the concrete
cases of the specification follow, with multiple bold spans converted
independently. -/
theorem claim6_format_bullet_pipeline :
    (∀ s : String, format_bullet s =
      stripCitationArtifacts (markdownBoldToHtml (stripLeadingBullet (pyStripS s))))
    ∧ format_bullet "- Hello" = "Hello"
    ∧ format_bullet "  • World  " = "World"
    ∧ format_bullet "no bullet" = "no bullet"
    ∧ format_bullet "a **b** c" = "a <strong>b</strong> c"
    ∧ format_bullet "a **b** c **d** e" = "a <strong>b</strong> c <strong>d</strong> e" := by
  refine ⟨?_, by decide, by decide, by decide, by decide, by decide⟩
  intro s
  by_cases h : s = ""
  · subst h
    rfl
  · simp [format_bullet, h]

/-- C7: each registered transform is a total function of its input string —
each is a plain Lean function, defined by structural recursion, so totality
holds by construction — and each maps the empty string (the falsy/absent
input case of the source) to the empty string. -/
theorem claim7_filters_total_empty :
    format_bullet "" = "" ∧ format_bullets "" = ""
    ∧ clean_citations "" = "" ∧ nl2br "" = "" :=
  ⟨rfl, rfl, rfl, rfl⟩

/-- C8: `generate_output_filename` parses its argument as `YYYY-MM-DD`; on
success the result is `newsletter_<YYYYMMDD>.html` (zero-padded fields), and
in particular `"2024-01-10"` maps to `"newsletter_20240110.html"` for every
current date; on any parse failure it returns the same pattern built from
the current date (`todayYMD`) instead of raising. -/
theorem claim8_output_filename :
    (∀ today : String,
      generate_output_filename today "2024-01-10" = "newsletter_20240110.html")
    ∧ (∀ (today s : String) (y m d : Nat), parseYMD s = some (y, m, d) →
        generate_output_filename today s =
          "newsletter_" ++ (padNum 4 y ++ padNum 2 m ++ padNum 2 d) ++ ".html")
    ∧ (∀ today s : String, parseYMD s = none →
        generate_output_filename today s = "newsletter_" ++ today ++ ".html")
    ∧ parseYMD "not-a-date" = none := by
  refine ⟨fun today => rfl, ?_, ?_, rfl⟩
  · intro today s y m d h
    simp [generate_output_filename, h]
  · intro today s h
    simp [generate_output_filename, h]

/-- Witness for C8: a parse success (with single-digit month and day, which
`strptime` accepts) and the `"not-a-date"` fallback. -/
theorem claim8_witness :
    generate_output_filename "20250101" "2024-1-5" =
      "newsletter_" ++ (padNum 4 2024 ++ padNum 2 1 ++ padNum 2 5) ++ ".html"
    ∧ generate_output_filename "20250101" "not-a-date" =
      "newsletter_" ++ "20250101" ++ ".html" :=
  ⟨claim8_output_filename.2.1 "20250101" "2024-1-5" 2024 1 5 rfl,
   claim8_output_filename.2.2.1 "20250101" "not-a-date" rfl⟩

/-- C9: the timestamp step of `render_newsletter` assigns `generated_at` to
the current timestamp exactly when the key is absent: when present the
mapping is returned untouched (so the existing value and every other entry
are unchanged); when absent the update is the caller's mapping with the one
new binding appended, so `generated_at` then holds the timestamp and every
other key's lookup is unchanged. -/
theorem claim9_generated_at_frame :
    (∀ (now : String) (data : List (String × YVal)),
      dictContains data "generated_at" = true → render_setGeneratedAt now data = data)
    ∧ (∀ (now : String) (data : List (String × YVal)),
      dictContains data "generated_at" = false →
        render_setGeneratedAt now data = data ++ [("generated_at", YVal.str now)]
        ∧ dictGet? (render_setGeneratedAt now data) "generated_at" = some (YVal.str now)
        ∧ ∀ k : String, k ≠ "generated_at" →
            dictGet? (render_setGeneratedAt now data) k = dictGet? data k) := by
  constructor
  · intro now data h
    simp [render_setGeneratedAt, h]
  · intro now data h
    have heq : render_setGeneratedAt now data = data ++ [("generated_at", YVal.str now)] := by
      simp [render_setGeneratedAt, h]
    have hnone : dictGet? data "generated_at" = none := by
      cases hg : dictGet? data "generated_at" with
      | none => rfl
      | some v =>
        rw [dictContains_of_get_some hg] at h
        cases h
    refine ⟨heq, ?_, ?_⟩
    · rw [heq, dictGet?_append_single, hnone]
      simp
    · intro k hk
      rw [heq, dictGet?_append_single]
      cases hg : dictGet? data k with
      | some v => rfl
      | none =>
        have : ("generated_at" == k) = false := by
          simp only [beq_eq_false_iff_ne, ne_eq]
          exact fun hc => hk hc.symm
        simp [this]

/-- Witness for C9: a mapping already carrying `generated_at` is unchanged;
one without it gains exactly the timestamp binding at the end. -/
theorem claim9_witness :
    render_setGeneratedAt "2025-01-01 12:00:00"
        [("generated_at", YVal.str "old"), ("subject", YVal.null)] =
      [("generated_at", YVal.str "old"), ("subject", YVal.null)]
    ∧ render_setGeneratedAt "2025-01-01 12:00:00" [("subject", YVal.null)] =
      [("subject", YVal.null), ("generated_at", YVal.str "2025-01-01 12:00:00")]
    ∧ dictGet? (render_setGeneratedAt "2025-01-01 12:00:00" [("subject", YVal.null)])
        "subject" = dictGet? [("subject", YVal.null)] "subject" := by
  refine ⟨?_, ?_, ?_⟩
  · exact claim9_generated_at_frame.1 "2025-01-01 12:00:00" _ rfl
  · exact (claim9_generated_at_frame.2 "2025-01-01 12:00:00" [("subject", YVal.null)] rfl).1
  · exact (claim9_generated_at_frame.2 "2025-01-01 12:00:00"
      [("subject", YVal.null)] rfl).2.2 "subject" (by decide)

end NewsRender
